import Mathlib

/-! Verification development for the accessibility-tester audit engine
    (src/accessibility_tester.py).  The DOM snapshot produced by the HTML
    parser is modelled as a tree of nodes; the six rule evaluators, the
    crawl loop of `test_page`, the colour mathematics and the result
    aggregation are translated below, and the stated properties of the
    specification are settled against them. -/

/- ---------------------------------------------------------------------
   DOM model.  A parsed document is a forest of nodes: element nodes with a
   tag, an attribute list and children, plus the three kinds of string
   nodes the parser produces (plain text, comments, doctypes).  Comments
   and doctypes are subclasses of the parser's string type, so a
   `findAll(text=True)` search returns them too. -/

inductive Node where
  | elem (tag : String) (attrs : List (String × String)) (children : List Node)
  | text (s : String)
  | comment (s : String)
  | doctype (s : String)

/-- Attribute lookup: `el['k']` / `el.get_attribute_list('k')[0]`; `none`
    models an absent attribute. -/
def getAttr (n : Node) (k : String) : Option String :=
  match n with
  | .elem _ attrs _ => (attrs.find? (fun p => p.1 == k)).map (fun p => p.2)
  | _ => none

/-- Membership test `'k' in el.attrs`. -/
def hasAttr (n : Node) (k : String) : Bool := (getAttr n k).isSome

/-- Tag name of a node (`element.name`); string nodes have no tag. -/
def tagName (n : Node) : String :=
  match n with
  | .elem t _ _ => t
  | _ => ""

/-- Direct children of an element node. -/
def childrenOf (n : Node) : List Node :=
  match n with
  | .elem _ _ cs => cs
  | _ => []

mutual

/-- All element nodes of a subtree in document (preorder) order, the root
    element included. -/
def Node.elemsIn : Node → List Node
  | .elem t a cs => .elem t a cs :: elemsInF cs
  | _ => []

/-- All element nodes of a forest in document order. -/
def elemsInF : List Node → List Node
  | [] => []
  | n :: ns => n.elemsIn ++ elemsInF ns

end

/-- `soup.find_all(tag)`: every element with the given tag, in document
    order. -/
def findAllTag (page : List Node) (tag : String) : List Node :=
  (elemsInF page).filter (fun n => tagName n == tag)

/-- `soup.find(tag)`: the first element with the given tag. -/
def findTag (page : List Node) (tag : String) : Option Node :=
  (elemsInF page).find? (fun n => tagName n == tag)

/-- `soup.find(id=v)`: the first element whose id attribute equals `v`. -/
def findById (page : List Node) (v : String) : Option Node :=
  (elemsInF page).find? (fun n => getAttr n "id" == some v)

mutual

/-- All parser string nodes (`findAll(text=True)`) inside a node.  The
    parser's comment and doctype nodes are string subclasses and are
    returned by a text search as well. -/
def Node.strings : Node → List String
  | .elem _ _ cs => stringsF cs
  | .text s => [s]
  | .comment s => [s]
  | .doctype s => [s]

/-- String nodes of a forest in document order. -/
def stringsF : List Node → List String
  | [] => []
  | n :: ns => n.strings ++ stringsF ns

end

/-- `element.findChildren(tag, recursive=False)`: direct children with the
    given tag. -/
def directChildrenTag (n : Node) (tag : String) : List Node :=
  (childrenOf n).filter (fun c => tagName c == tag)

/- `extract_texts` (lines 371-396) destructively removes the script, style,
   title and noscript elements, every comment, and the first doctype from
   the soup (the soup object is aliased, so the removal is visible to every
   later use of the page), then collects the parent element of every
   remaining string node whose stripped text is non-empty. -/

/-- Tags removed by `extract_texts` (line 376). -/
def invisibleTags : List String := ["script", "style", "title", "noscript"]

mutual

/-- Removal of the invisible-tag elements (with their whole subtrees) and
    of all comments from a subtree (lines 376-382). -/
def pruneNode : Node → Option Node
  | .elem t a cs => if t ∈ invisibleTags then none else some (.elem t a (pruneF cs))
  | .comment _ => none
  | .text s => some (.text s)
  | .doctype s => some (.doctype s)

/-- Forest version of `pruneNode`. -/
def pruneF : List Node → List Node
  | [] => []
  | n :: ns =>
    match pruneNode n with
    | some n2 => n2 :: pruneF ns
    | none => pruneF ns

end

mutual

/-- Removal of the first doctype node in document order from a subtree
    (lines 385-387); the boolean records whether one was removed. -/
def rmDoctype : Node → Option Node × Bool
  | .doctype _ => (none, true)
  | .elem t a cs =>
    match rmDoctypeF cs with
    | (cs2, b) => (some (.elem t a cs2), b)
  | .text s => (some (.text s), false)
  | .comment s => (some (.comment s), false)

/-- Forest version of `rmDoctype`. -/
def rmDoctypeF : List Node → List Node × Bool
  | [] => ([], false)
  | n :: ns =>
    match rmDoctype n with
    | (n2, true) => (n2.toList ++ ns, true)
    | (n2, false) =>
      match rmDoctypeF ns with
      | (ns2, b) => (n2.toList ++ ns2, b)

end

/-- The destructive cleanup performed by `extract_texts` on the shared
    soup: invisible elements and comments go first (lines 376-382), then
    the first doctype (lines 385-387). -/
def prunePage (page : List Node) : List Node := (rmDoctypeF (pruneF page)).1

/-- Filter on string nodes (line 393): kept when the stripped text is
    non-empty (the second test of line 393 is subsumed by the first). -/
def keptText (s : String) : Bool := !(s.trim == "") && !(s == "\n")

mutual

/-- Parents of qualifying string nodes inside an element, in the document
    order of the strings (lines 390-394: for each kept string node its
    parent element is appended, one entry per string).  A string node at
    the top level of the document has the soup object itself as parent and
    no element is recorded for it; pages rendered by a browser always wrap
    everything in a single html element. -/
def Node.textParents : Node → List Node
  | .elem t a cs => textParentsF2 (.elem t a cs) cs
  | _ => []

/-- Children walk for `Node.textParents`: `parent` is the element whose
    child list is being scanned. -/
def textParentsF2 (parent : Node) : List Node → List Node
  | [] => []
  | .text s :: ns => (if keptText s then [parent] else []) ++ textParentsF2 parent ns
  | .comment s :: ns => (if keptText s then [parent] else []) ++ textParentsF2 parent ns
  | .doctype s :: ns => (if keptText s then [parent] else []) ++ textParentsF2 parent ns
  | .elem t a cs :: ns => (Node.elem t a cs).textParents ++ textParentsF2 parent ns

end

/-- Per-forest parent collection for qualifying strings. -/
def textParentsF (page : List Node) : List Node :=
  page.flatMap (fun n => n.textParents)

/-- The value returned by `extract_texts` (lines 371-396): the parents of
    the qualifying strings of the pruned soup.  The pruning side effect on
    the shared page is modelled at the call site (`check_color_contrast`),
    which continues with `prunePage page`. -/
def extract_texts (page : List Node) : List Node :=
  textParentsF (prunePage page)

/- ---------------------------------------------------------------------
   Result tallies.  `self.correct` / `self.wrong` are per-category counters
   (lines 54-55), modelled as functions from category to count. -/

/-- The six rule categories (keys of the dictionaries of lines 54-55). -/
inductive Cat where
  | doc_language
  | alt_texts
  | input_labels
  | empty_buttons
  | empty_links
  | color_contrast
deriving DecidableEq

/-- List of all six categories. -/
def allCats : List Cat :=
  [.doc_language, .alt_texts, .input_labels, .empty_buttons, .empty_links, .color_contrast]

/-- The mutable counter state of a run: the `correct` and `wrong`
    dictionaries. -/
@[ext] structure TState where
  correct : Cat → ℕ
  wrong : Cat → ℕ

/-- Counter state at construction (lines 54-55): every category zero. -/
def initState : TState := ⟨fun _ => 0, fun _ => 0⟩

/-- Increment of one category in one dictionary. -/
def bump (cat : Cat) (t : Cat → ℕ) : Cat → ℕ :=
  fun x => if x = cat then t x + 1 else t x

/-- `self.correct[cat] += 1`. -/
def incC (cat : Cat) (s : TState) : TState := { s with correct := bump cat s.correct }

/-- `self.wrong[cat] += 1`. -/
def incW (cat : Cat) (s : TState) : TState := { s with wrong := bump cat s.wrong }

/-- The common shape of the evaluator loops: every element is judged, a
    judged element increments exactly one counter of the evaluator's
    category, a skipped element (judgement `none`) increments nothing.
    The string carries the reason printed with the finding. -/
def tallyFold (cat : Cat) (judge : α → Option (Bool × String)) (els : List α) (s : TState) :
    TState :=
  els.foldl (fun acc e =>
    match judge e with
    | some (true, _) => incC cat acc
    | some (false, _) => incW cat acc
    | none => acc) s

/-- Pointwise addition of counter states. -/
def addT (s d : TState) : TState :=
  ⟨fun x => s.correct x + d.correct x, fun x => s.wrong x + d.wrong x⟩

/-- A counter state concentrated on one category. -/
def mkDelta (cat : Cat) (c w : ℕ) : TState :=
  ⟨fun x => if x = cat then c else 0, fun x => if x = cat then w else 0⟩

/-- Total of all counters of a state. -/
def totalT (s : TState) : ℕ :=
  (allCats.map (fun x => s.correct x + s.wrong x)).sum

/- ---------------------------------------------------------------------
   The six rule evaluators (lines 154-320). -/

/-- Per-image judgement of `check_alt_texts` (lines 173-184). -/
def altJudge (img : Node) : Bool × String :=
  match getAttr img "alt" with
  | some a => if a == "" then (false, "Alt text is empty") else (true, "Alt text is correct")
  | none => (false, "Alt text is missing")

/-- `check_doc_language` (lines 154-166): looks up the first html element;
    a page without one makes the original crash with an attribute error on
    `None`, modelled as `none`. -/
def check_doc_language (page : List Node) (s : TState) : Option TState :=
  (findTag page "html").map (fun h =>
    match getAttr h "lang" with
    | some l => if l == "" then incW .doc_language s else incC .doc_language s
    | none => incW .doc_language s)

/-- `check_alt_texts` (lines 169-184). -/
def check_alt_texts (page : List Node) (s : TState) : TState :=
  tallyFold .alt_texts (fun e => some (altJudge e)) (findAllTag page "img") s

/-- The inclusion test of `check_input_labels` (lines 194-195): an input
    participates when it has no type attribute, or a type other than
    hidden, submit, reset and button. -/
def inputIncluded (el : Node) : Bool :=
  match getAttr el "type" with
  | some t => !(t == "hidden") && !(t == "submit") && !(t == "reset") && !(t == "button")
  | none => true

/-- Non-empty attribute test used throughout the evaluators. -/
def attrNonEmpty (el : Node) (k : String) : Bool :=
  match getAttr el k with
  | some v => !(v == "")
  | none => false

/-- Per-input judgement of `check_input_labels` (lines 192-231), with the
    printed reason.  `none` models an excluded input type. -/
def inputLabelJudge (page : List Node) (labels : List Node) (el : Node) :
    Option (Bool × String) :=
  if inputIncluded el then
    some (
      if getAttr el "type" == some "image" && attrNonEmpty el "alt" then
        (true, "Input of type image labelled with alt text")
      else if attrNonEmpty el "aria-label" then
        (true, "Input labelled with aria-label attribute")
      else if attrNonEmpty el "aria-labelledby" then
        match findById page ((getAttr el "aria-labelledby").getD "") with
        | some lbl =>
          if lbl.strings == [] then
            (false, "Input labelled with aria-labelledby attribute, but related label has no text")
          else
            (true, "Input labelled with aria-labelledby attribute")
        | none =>
          (false, "Input labelled with aria-labelledby attribute, but related label does not exist")
      else if labels.any (fun l =>
          hasAttr l "for" && hasAttr el "id" && (getAttr l "for" == getAttr el "id")) then
        (true, "Input labelled with label element")
      else
        (false, "Input not labelled at all"))
  else none

/-- `check_input_labels` (lines 187-231). -/
def check_input_labels (page : List Node) (s : TState) : TState :=
  tallyFold .input_labels (inputLabelJudge page (findAllTag page "label"))
    (findAllTag page "input") s

/-- `page.find_all("input", type=["submit", "button", "reset"])` of
    line 237: inputs whose type attribute is one of the three values. -/
def typedButtonInputs (page : List Node) : List Node :=
  (findAllTag page "input").filter (fun el =>
    match getAttr el "type" with
    | some t => t == "submit" || t == "button" || t == "reset"
    | none => false)

/-- Per-input judgement of the first loop of `check_buttons`
    (lines 240-247): only a non-empty value attribute counts as content. -/
def buttonInputJudge (el : Node) : Bool × String :=
  if attrNonEmpty el "value" then (true, "Button has content") else (false, "Button is empty")

/-- Per-button judgement of the second loop of `check_buttons`
    (lines 249-257): text content or a non-empty title attribute. -/
def buttonElemJudge (el : Node) : Bool × String :=
  if !(el.strings == []) || attrNonEmpty el "title" then
    (true, "Button has content")
  else
    (false, "Button is empty")

/-- `check_buttons` (lines 234-257): first the button-type inputs, then the
    button elements. -/
def check_buttons (page : List Node) (s : TState) : TState :=
  tallyFold .empty_buttons (fun e => some (buttonElemJudge e)) (findAllTag page "button")
    (tallyFold .empty_buttons (fun e => some (buttonInputJudge e)) (typedButtonInputs page) s)

/-- Per-anchor judgement of `check_links` (lines 264-278): text content, or
    at least one direct image child with every direct image child carrying
    a non-empty alt text. -/
def linkJudge (el : Node) : Bool × String :=
  let imgs := directChildrenTag el "img"
  if !(el.strings == []) || (!imgs.isEmpty && imgs.all (fun i => attrNonEmpty i "alt")) then
    (true, "Link has content")
  else
    (false, "Link is empty")

/-- `check_links` (lines 260-278). -/
def check_links (page : List Node) (s : TState) : TState :=
  tallyFold .empty_links (fun e => some (linkJudge e)) (findAllTag page "a") s

/- ---------------------------------------------------------------------
   Colour mathematics (lines 398-452). -/

/-- A parsed rgba colour value: channels 0-255, alpha 0-1
    (`convert_to_rgba_value` normalises a missing alpha to 1). -/
structure Color where
  r : ℚ
  g : ℚ
  b : ℚ
  a : ℚ
deriving DecidableEq

/-- The opaque white returned when the ancestor chain is exhausted
    (line 401). -/
def whiteColor : Color := ⟨255, 255, 255, 1⟩

/-- `get_background_color` (lines 398-409) over the chain of computed
    background colours of the element and its ancestors, nearest first: the
    recursion steps to `text.parent` whenever the current background's
    alpha component is zero (line 406) and answers opaque white once the
    chain is exhausted (`text is None`, lines 400-401). -/
def get_background_color : List Color → Color
  | [] => whiteColor
  | c :: rest => if c.a == 0 then get_background_color rest else c

/-- `convert_rgb_8bit_value` (lines 443-452): the sRGB channel
    linearization, with the branch split at srgb 0.03928. -/
noncomputable def convert_rgb_8bit_value (single_rgb_8bit_value : ℝ) : ℝ :=
  let srgb := single_rgb_8bit_value / 255
  if srgb ≤ 0.03928 then srgb / 12.92
  else ((srgb + 0.055) / 1.055) ^ (2.4 : ℝ)

/-- `get_contrast_ratio` (lines 419-441): relative luminances of the two
    colours and the WCAG contrast formula, the lighter luminance in the
    numerator. -/
noncomputable def get_contrast_ratio (text_color background_color : Color) : ℝ :=
  let r_text := convert_rgb_8bit_value (text_color.r : ℝ)
  let g_text := convert_rgb_8bit_value (text_color.g : ℝ)
  let b_text := convert_rgb_8bit_value (text_color.b : ℝ)
  let r_background := convert_rgb_8bit_value (background_color.r : ℝ)
  let g_background := convert_rgb_8bit_value (background_color.g : ℝ)
  let b_background := convert_rgb_8bit_value (background_color.b : ℝ)
  let luminance_text := 0.2126 * r_text + 0.7152 * g_text + 0.0722 * b_text
  let luminance_background := 0.2126 * r_background + 0.7152 * g_background + 0.0722 * b_background
  if luminance_text > luminance_background then
    (luminance_text + 0.05) / (luminance_background + 0.05)
  else
    (luminance_background + 0.05) / (luminance_text + 0.05)

/-- Relative luminance of a colour (lines 430-431), factored out for the
    statements about `get_contrast_ratio`. -/
noncomputable def luminanceOf (c : Color) : ℝ :=
  0.2126 * convert_rgb_8bit_value (c.r : ℝ) + 0.7152 * convert_rgb_8bit_value (c.g : ℝ)
    + 0.0722 * convert_rgb_8bit_value (c.b : ℝ)

/- ---------------------------------------------------------------------
   The colour-contrast evaluator (lines 281-320).  The live rendering
   surface is the external collaborator: for an element it yields the
   computed display property, the parsed text colour, the font size and
   weight strings, and the chain of computed background colours of the
   element and its ancestors (the data `get_background_color` walks via
   `value_of_css_property('background-color')`; the rgba string parsing of
   `convert_to_rgba_value` belongs to that boundary). -/

structure StyleInfo where
  display : String
  color : Color
  fontSize : Option String
  fontWeight : String
  bgChain : List Color

/-- Digit extraction of lines 305 and 307:
    `int(''.join(filter(str.isdigit, font_size)))`. -/
def digitsVal (s : String) : ℕ :=
  (s.data.filter Char.isDigit).foldl (fun acc c => 10 * acc + (c.toNat - 48)) 0

/-- Substring test `font_size.__contains__("px")`. -/
def strContains (s pat : String) : Bool := !((s.splitOn pat).length == 1)

/-- The large-text test of lines 304-307: a px font size of at least 18, or
    a bold-equivalent weight (or a strong element) with a px font size of
    at least 14. -/
def largeText (si : StyleInfo) (e : Node) : Bool :=
  match si.fontSize with
  | some fs =>
    strContains fs "px" &&
      (decide (18 ≤ digitsVal fs) ||
        ((si.fontWeight == "bold" || si.fontWeight == "700" || si.fontWeight == "800"
            || si.fontWeight == "900" || tagName e == "strong")
          && decide (14 ≤ digitsVal fs)))
  | none => false

open Classical in
/-- Per-candidate judgement of `check_color_contrast` (lines 287-320):
    skip when the computed display is none, or when the candidate is an
    input without a type attribute or of type hidden (line 291); otherwise
    compare the contrast of the text colour against the effective
    background with the threshold selected by the large-text test. -/
noncomputable def contrastJudge (style : Node → StyleInfo) (e : Node) :
    Option (Bool × String) :=
  let si := style e
  if !(si.display == "none")
      && (!(tagName e == "input")
        || (tagName e == "input" && hasAttr e "type" && !(getAttr e "type" == some "hidden"))) then
    let text_color := si.color
    let background_color := get_background_color si.bgChain
    let contrast := get_contrast_ratio text_color background_color
    some (
      if largeText si e then
        if (3 : ℝ) ≤ contrast then (true, "Contrast meets minimum requirements")
        else (false, "Contrast does not meet minimum requirements")
      else
        if (4.5 : ℝ) ≤ contrast then (true, "Contrast meets minimum requirements")
        else (false, "Contrast does not meet minimum requirements"))
  else none

/-- `check_color_contrast` (lines 281-320).  `extract_texts` prunes the
    aliased soup (line 284) before the inputs are collected from it
    (line 285), so the candidate list and the page visible to later
    evaluators are both the pruned tree; the second component is the page
    the instance holds afterwards. -/
noncomputable def check_color_contrast (style : Node → StyleInfo) (page : List Node)
    (s : TState) : TState × List Node :=
  let pruned := prunePage page
  let texts_on_page := textParentsF pruned
  let input_elements := findAllTag pruned "input"
  (tallyFold .color_contrast (contrastJudge style) (texts_on_page ++ input_elements) s, pruned)

/- ---------------------------------------------------------------------
   The evaluator sequence of `test_page` (lines 110-115). -/

/-- Names for the six evaluators. -/
inductive Checker where
  | docLanguage
  | altTexts
  | inputLabels
  | buttons
  | links
  | colorContrast
deriving DecidableEq

/-- Category an evaluator reports into. -/
def catOf : Checker → Cat
  | .docLanguage => .doc_language
  | .altTexts => .alt_texts
  | .inputLabels => .input_labels
  | .buttons => .empty_buttons
  | .links => .empty_links
  | .colorContrast => .color_contrast

/-- One evaluator run against the instance state: the counter state and the
    page held by the instance afterwards (`check_color_contrast` replaces
    the page by the pruned tree, the other five leave it unchanged;
    `check_doc_language` fails on a page without an html element). -/
noncomputable def runChecker (style : Node → StyleInfo) (c : Checker) (page : List Node)
    (s : TState) : Option (List Node × TState) :=
  match c with
  | .docLanguage => (check_doc_language page s).map (fun s2 => (page, s2))
  | .altTexts => some (page, check_alt_texts page s)
  | .inputLabels => some (page, check_input_labels page s)
  | .buttons => some (page, check_buttons page s)
  | .links => some (page, check_links page s)
  | .colorContrast =>
    match check_color_contrast style page s with
    | (s2, page2) => some (page2, s2)

/-- A sequence of evaluator runs threading the page and the counters, as
    `test_page` does with the instance attributes. -/
noncomputable def runCheckers (style : Node → StyleInfo) :
    List Checker → List Node → TState → Option (List Node × TState)
  | [], page, s => some (page, s)
  | c :: cs, page, s =>
    match runChecker style c page s with
    | some (page2, s2) => runCheckers style cs page2 s2
    | none => none

/-- The evaluator order of `test_page` (lines 110-115). -/
def sourceOrder : List Checker :=
  [.docLanguage, .altTexts, .inputLabels, .buttons, .links, .colorContrast]

/- ---------------------------------------------------------------------
   The crawl of `test_page` (lines 106-151).  Links are modelled by their
   visibility and resolved absolute target; page identity is the canonical
   URL (a natural number).  `so` is the same-origin test of line 145
   (`urlparse(self.url).hostname in self.driver.current_url` for the fixed
   root URL).  The state records the visited list (line 57), the audit log
   (one entry per execution of the six checks, lines 110-115) and the log
   of URLs navigated in freshly opened child windows (lines 140-142). -/

structure CrawlLink where
  displayed : Bool
  href : Option ℕ
deriving DecidableEq

structure CrawlState where
  visited : List ℕ
  audited : List ℕ
  opened : List ℕ
deriving DecidableEq

structure Site where
  links : ℕ → List CrawlLink

/-- Handling of one anchor inside the link loop (lines 127-149): the
    admission tests of lines 134-135, then the window open and navigation
    of lines 140-142, then the post-navigation test of line 145, and only
    past it the recursive `test_page` call (line 149) given here as
    `recur`. -/
def crawlStep (so : ℕ → Bool) (current : ℕ)
    (recur : ℕ → CrawlState → Option CrawlState)
    (s : CrawlState) (l : CrawlLink) : Option CrawlState :=
  if !l.displayed then some s
  else match l.href with
  | none => some s
  | some h =>
    if h = current ∨ h ∈ s.visited then some s
    else
      let s2 : CrawlState := { s with opened := s.opened ++ [h] }
      if h ∈ s2.visited ∨ !(so h) then some s2
      else recur h s2

/-- `test_page` (lines 106-151): audit the current page, and with follow
    enabled append the current URL to the visited list (line 123) before
    iterating over the page's links.  The fuel argument bounds the
    recursion depth; `none` models fuel exhaustion, so a `some` result
    witnesses termination of the original recursion. -/
def test_page (site : Site) (so : ℕ → Bool) (follow : Bool) :
    ℕ → ℕ → CrawlState → Option CrawlState
  | 0, _, _ => none
  | fuel + 1, current, st =>
    let st1 : CrawlState := { st with audited := st.audited ++ [current] }
    if follow then
      let st2 : CrawlState := { st1 with visited := st1.visited ++ [current] }
      (site.links current).foldlM (crawlStep so current (test_page site so follow fuel)) st2
    else some st1

/-- A page linking to itself. -/
def selfSite (a : ℕ) : Site := ⟨fun u => if u = a then [⟨true, some a⟩] else []⟩

/-- Two pages linking to each other. -/
def cycleSite (a b : ℕ) : Site :=
  ⟨fun u => if u = a then [⟨true, some b⟩] else if u = b then [⟨true, some a⟩] else []⟩

/-- Origin page 0 carrying one visible link to page 5. -/
def crossSite : Site := ⟨fun u => if u = 0 then [⟨true, some 5⟩] else []⟩

/-- Origin test for `crossSite`: only page 0 is on the configured origin
    host; page 5 is cross-origin. -/
def crossOrigin : ℕ → Bool := fun u => u == 0

/- ---------------------------------------------------------------------
   `calculate_result` (lines 323-346). -/

/-- The two normal completions of `calculate_result`: the distinct
    nothing-found report of lines 328-330, and the deploy message of
    line 343. -/
inductive CalcOutcome where
  | nothingFound
  | deploy
deriving DecidableEq

/-- `calculate_result` (lines 323-346) on the summed counters: with no
    findings it returns normally after the nothing-found report; with the
    ratio at or above the required degree it returns normally after the
    success report; otherwise it raises an exception (line 346), modelled
    as the error case. -/
def calculate_result (correct wrong : ℕ) (required_degree : ℚ) : Except String CalcOutcome :=
  if correct = 0 ∧ wrong = 0 then .ok .nothingFound
  else if required_degree ≤ (correct : ℚ) / ((correct : ℚ) + (wrong : ℚ)) then .ok .deploy
  else .error "Too many accessibility errors - try fix them!"

/- ---------------------------------------------------------------------
   Derived definitions used by the statements and proofs. -/

/-- Pass test on a judgement result. -/
def passJ (r : Option (Bool × String)) : Bool :=
  match r with
  | some (true, _) => true
  | _ => false

/-- Fail test on a judgement result. -/
def failJ (r : Option (Bool × String)) : Bool :=
  match r with
  | some (false, _) => true
  | _ => false

/-- Counter increment contributed by one run of an evaluator other than the
    colour-contrast one (which also changes the page). -/
def deltaOf (c : Checker) (page : List Node) : TState :=
  match c with
  | .docLanguage =>
    match findTag page "html" with
    | some h =>
      match getAttr h "lang" with
      | some l => if l == "" then mkDelta .doc_language 0 1 else mkDelta .doc_language 1 0
      | none => mkDelta .doc_language 0 1
    | none => mkDelta .doc_language 0 0
  | .altTexts =>
    mkDelta .alt_texts
      ((findAllTag page "img").countP (fun e => passJ (some (altJudge e))))
      ((findAllTag page "img").countP (fun e => failJ (some (altJudge e))))
  | .inputLabels =>
    mkDelta .input_labels
      ((findAllTag page "input").countP
        (fun e => passJ (inputLabelJudge page (findAllTag page "label") e)))
      ((findAllTag page "input").countP
        (fun e => failJ (inputLabelJudge page (findAllTag page "label") e)))
  | .buttons =>
    addT
      (mkDelta .empty_buttons
        ((typedButtonInputs page).countP (fun e => passJ (some (buttonInputJudge e))))
        ((typedButtonInputs page).countP (fun e => failJ (some (buttonInputJudge e)))))
      (mkDelta .empty_buttons
        ((findAllTag page "button").countP (fun e => passJ (some (buttonElemJudge e))))
        ((findAllTag page "button").countP (fun e => failJ (some (buttonElemJudge e)))))
  | .links =>
    mkDelta .empty_links
      ((findAllTag page "a").countP (fun e => passJ (some (linkJudge e))))
      ((findAllTag page "a").countP (fun e => failJ (some (linkJudge e))))
  | .colorContrast => mkDelta .color_contrast 0 0

/-- Sum of the increments of a list of evaluators. -/
def sumDeltas (cs : List Checker) (page : List Node) : TState :=
  cs.foldr (fun c acc => addT (deltaOf c page) acc) initState

/-- Number of judged elements (or page-level facts) of one evaluator run:
    the elements its loop reaches that are not skipped. -/
noncomputable def judgedCount (style : Node → StyleInfo) (c : Checker) (page : List Node) : ℕ :=
  match c with
  | .docLanguage => 1
  | .altTexts => (findAllTag page "img").length
  | .inputLabels =>
    (findAllTag page "input").countP
      (fun e => (inputLabelJudge page (findAllTag page "label") e).isSome)
  | .buttons => (typedButtonInputs page).length + (findAllTag page "button").length
  | .links => (findAllTag page "a").length
  | .colorContrast =>
    (textParentsF (prunePage page) ++ findAllTag (prunePage page) "input").countP
      (fun e => (contrastJudge style e).isSome)

/-- The labeling paths of the specification in their stated priority order:
    image with alt text, direct accessible-label attribute, label-reference
    attribute (with the two distinct failure reasons), label element with a
    matching for attribute.  A path that does not apply yields `none`. -/
def spec_label_paths (page : List Node) (labels : List Node) (el : Node) :
    List (Option (Bool × String)) :=
  [ if getAttr el "type" == some "image" && attrNonEmpty el "alt" then
      some (true, "Input of type image labelled with alt text")
    else none,
    if attrNonEmpty el "aria-label" then
      some (true, "Input labelled with aria-label attribute")
    else none,
    if attrNonEmpty el "aria-labelledby" then
      some (
        match findById page ((getAttr el "aria-labelledby").getD "") with
        | some lbl =>
          if lbl.strings == [] then
            (false, "Input labelled with aria-labelledby attribute, but related label has no text")
          else
            (true, "Input labelled with aria-labelledby attribute")
        | none =>
          (false, "Input labelled with aria-labelledby attribute, but related label does not exist"))
    else none,
    if labels.any (fun l =>
        hasAttr l "for" && hasAttr el "id" && (getAttr l "for" == getAttr el "id")) then
      some (true, "Input labelled with label element")
    else none ]

/-- Specification-side evaluation of the input-labeling rule: the first
    applicable path wins; with no applicable path the control is not
    labelled at all. -/
def spec_input_label (page : List Node) (labels : List Node) (el : Node) : Bool × String :=
  ((spec_label_paths page labels el).findSome? id).getD (false, "Input not labelled at all")

/-- Specification-side effective background: the first colour of the chain
    (element first, then ancestors) whose alpha is positive, defaulting to
    opaque white. -/
def spec_effective_background (chain : List Color) : Color :=
  (chain.find? (fun c => decide (0 < c.a))).getD whiteColor

/-- Channel bounds of the colour model: R, G and B within 0-255. -/
def channelsInRange (c : Color) : Prop :=
  0 ≤ c.r ∧ c.r ≤ 255 ∧ 0 ≤ c.g ∧ c.g ≤ 255 ∧ 0 ≤ c.b ∧ c.b ≤ 255

instance (c : Color) : Decidable (channelsInRange c) :=
  inferInstanceAs (Decidable (0 ≤ c.r ∧ c.r ≤ 255 ∧ 0 ≤ c.g ∧ c.g ≤ 255 ∧ 0 ≤ c.b ∧ c.b ≤ 255))

/-- A concrete live-style accessor for the counterexample pages: display
    none everywhere (never consulted on them, since their candidate lists
    are empty). -/
def plainStyle : Node → StyleInfo := fun _ => ⟨"none", whiteColor, none, "", []⟩

/-- A page whose button's only text sits inside a script element. -/
def scriptButtonPage : List Node :=
  [.elem "html" [("lang", "en")]
    [.elem "body" [] [.elem "button" [] [.elem "script" [] [.text "x"]]]]]

/-- The evaluator order with the colour-contrast evaluator moved before the
    non-empty-controls evaluator. -/
def contrastFirstOrder : List Checker :=
  [.docLanguage, .altTexts, .inputLabels, .colorContrast, .links, .buttons]

/-- A submit input carrying a non-empty title but no value attribute. -/
def titledSubmitInput : Node := .elem "input" [("type", "submit"), ("title", "Go")] []

/-- A page containing only `titledSubmitInput`. -/
def titledSubmitPage : List Node :=
  [.elem "html" [] [.elem "body" [] [titledSubmitInput]]]
/- Counter-state algebra. -/

theorem addT_init (s : TState) : addT s initState = s := by
  ext x <;> simp [addT, initState]

theorem addT_assoc (s a b : TState) : addT (addT s a) b = addT s (addT a b) := by
  ext x <;> simp [addT] <;> omega

theorem addT_left_comm (a b c : TState) : addT a (addT b c) = addT b (addT a c) := by
  ext x <;> simp [addT] <;> omega

theorem addT_mk_zero (s : TState) (cat : Cat) : addT s (mkDelta cat 0 0) = s := by
  ext x <;> simp [addT, mkDelta]

theorem incC_eq (cat : Cat) (s : TState) : incC cat s = addT s (mkDelta cat 1 0) := by
  ext x <;> simp [incC, addT, mkDelta, bump] <;> by_cases hx : x = cat <;> simp [hx]

theorem incW_eq (cat : Cat) (s : TState) : incW cat s = addT s (mkDelta cat 0 1) := by
  ext x <;> simp [incW, addT, mkDelta, bump] <;> by_cases hx : x = cat <;> simp [hx]

theorem addT_incC_mk (cat : Cat) (s : TState) (c w : ℕ) :
    addT (incC cat s) (mkDelta cat c w) = addT s (mkDelta cat (c + 1) w) := by
  ext x <;> simp [incC, addT, mkDelta, bump] <;> by_cases hx : x = cat <;> simp [hx] <;> omega

theorem addT_incW_mk (cat : Cat) (s : TState) (c w : ℕ) :
    addT (incW cat s) (mkDelta cat c w) = addT s (mkDelta cat c (w + 1)) := by
  ext x <;> simp [incW, addT, mkDelta, bump] <;> by_cases hx : x = cat <;> simp [hx] <;> omega

theorem tallyFold_eq (cat : Cat) (judge : α → Option (Bool × String)) (els : List α)
    (s : TState) :
    tallyFold cat judge els s =
      addT s (mkDelta cat (els.countP (fun e => passJ (judge e)))
        (els.countP (fun e => failJ (judge e)))) := by
  induction els generalizing s with
  | nil => simp [tallyFold, addT_mk_zero]
  | cons e els ih =>
    rcases h : judge e with _ | ⟨b, m⟩
    · have step : tallyFold cat judge (e :: els) s = tallyFold cat judge els s := by
        simp [tallyFold, h]
      rw [step, ih]
      simp [List.countP_cons, passJ, failJ, h]
    · cases b with
      | true =>
        have step : tallyFold cat judge (e :: els) s = tallyFold cat judge els (incC cat s) := by
          simp [tallyFold, h]
        rw [step, ih]
        simp [List.countP_cons, passJ, failJ, h, addT_incC_mk]
      | false =>
        have step : tallyFold cat judge (e :: els) s = tallyFold cat judge els (incW cat s) := by
          simp [tallyFold, h]
        rw [step, ih]
        simp [List.countP_cons, passJ, failJ, h, addT_incW_mk]

/- Per-evaluator characterizations. -/

theorem check_alt_texts_delta (page : List Node) (s : TState) :
    check_alt_texts page s = addT s (deltaOf .altTexts page) := by
  rw [check_alt_texts, tallyFold_eq]; rfl

theorem check_input_labels_delta (page : List Node) (s : TState) :
    check_input_labels page s = addT s (deltaOf .inputLabels page) := by
  rw [check_input_labels, tallyFold_eq]; rfl

theorem check_buttons_delta (page : List Node) (s : TState) :
    check_buttons page s = addT s (deltaOf .buttons page) := by
  rw [check_buttons, tallyFold_eq, tallyFold_eq, addT_assoc]; rfl

theorem check_links_delta (page : List Node) (s : TState) :
    check_links page s = addT s (deltaOf .links page) := by
  rw [check_links, tallyFold_eq]; rfl

theorem check_doc_language_delta (page : List Node) (s : TState)
    (hhtml : (findTag page "html").isSome) :
    check_doc_language page s = some (addT s (deltaOf .docLanguage page)) := by
  obtain ⟨h, hfound⟩ := Option.isSome_iff_exists.mp hhtml
  simp only [check_doc_language, deltaOf, hfound, Option.map_some']
  rcases hl : getAttr h "lang" with _ | l
  · simp only [hl, incW_eq]
  · simp only [hl]
    by_cases he : l == ""
    · rw [if_pos he, if_pos he, incW_eq]
    · rw [if_neg he, if_neg he, incC_eq]

theorem runChecker_delta (style : Node → StyleInfo) (c : Checker) (page : List Node) (s : TState)
    (hc : c ≠ Checker.colorContrast) (hhtml : (findTag page "html").isSome) :
    runChecker style c page s = some (page, addT s (deltaOf c page)) := by
  cases c with
  | docLanguage => rw [runChecker, check_doc_language_delta page s hhtml]; rfl
  | altTexts => rw [runChecker, check_alt_texts_delta]
  | inputLabels => rw [runChecker, check_input_labels_delta]
  | buttons => rw [runChecker, check_buttons_delta]
  | links => rw [runChecker, check_links_delta]
  | colorContrast => exact absurd rfl hc

theorem runCheckers_delta (style : Node → StyleInfo) (cs : List Checker) (page : List Node)
    (s : TState) (hnc : Checker.colorContrast ∉ cs) (hhtml : (findTag page "html").isSome) :
    runCheckers style cs page s = some (page, addT s (sumDeltas cs page)) := by
  induction cs generalizing s with
  | nil => rw [runCheckers, sumDeltas]; simp [addT_init]
  | cons c cs ih =>
    have hc : c ≠ Checker.colorContrast := fun h => hnc (h ▸ List.mem_cons_self c cs)
    have hcs : Checker.colorContrast ∉ cs := fun h => hnc (List.mem_cons_of_mem c h)
    rw [runCheckers, runChecker_delta style c page s hc hhtml]
    show runCheckers style cs page (addT s (deltaOf c page)) = _
    rw [ih _ hcs,
      show sumDeltas (c :: cs) page = addT (deltaOf c page) (sumDeltas cs page) from rfl,
      ← addT_assoc]

theorem sumDeltas_perm (cs1 cs2 : List Checker) (page : List Node) (hperm : cs1.Perm cs2) :
    sumDeltas cs1 page = sumDeltas cs2 page := by
  haveI : LeftCommutative (fun (c : Checker) acc => addT (deltaOf c page) acc) :=
    ⟨fun _ _ _ => addT_left_comm _ _ _⟩
  exact hperm.foldr_eq initState

/-- C3 (amended): the five evaluators other than the colour-contrast one are
    pure functions of the page snapshot; running them in any order yields the
    same tallies (on a page with a root html element).  The colour-contrast
    evaluator is excluded because it mutates the shared snapshot. -/
theorem c3_pure_evaluator_order_invariance (style : Node → StyleInfo) (page : List Node) (s : TState)
    (cs1 cs2 : List Checker) (hperm : cs1.Perm cs2)
    (hnc : Checker.colorContrast ∉ cs1) (hhtml : (findTag page "html").isSome) :
    runCheckers style cs1 page s = runCheckers style cs2 page s := by
  have hnc2 : Checker.colorContrast ∉ cs2 := fun hm => hnc (hperm.mem_iff.mpr hm)
  rw [runCheckers_delta style cs1 page s hnc hhtml,
    runCheckers_delta style cs2 page s hnc2 hhtml,
    sumDeltas_perm cs1 cs2 page hperm]

/-- C3 counterexample: two orders of the six evaluators, differing only in
    the position of the colour-contrast evaluator, give different
    empty-buttons tallies on a page whose button text sits inside a script
    element, because `extract_texts` destroys the script subtree in the
    shared snapshot. -/
theorem c3_counterexample_order_dependent :
    sourceOrder.Perm contrastFirstOrder
    ∧ (runCheckers plainStyle sourceOrder scriptButtonPage initState).map
        (fun r => (r.2.correct .empty_buttons, r.2.wrong .empty_buttons)) = some (1, 0)
    ∧ (runCheckers plainStyle contrastFirstOrder scriptButtonPage initState).map
        (fun r => (r.2.correct .empty_buttons, r.2.wrong .empty_buttons)) = some (0, 1) :=
  ⟨by decide, by decide, by decide⟩

/- C10 machinery. -/

theorem passJ_none : passJ none = false := rfl

theorem passJ_some (b : Bool) (m : String) : passJ (some (b, m)) = b := by cases b <;> rfl

theorem failJ_none : failJ none = false := rfl

theorem failJ_some (b : Bool) (m : String) : failJ (some (b, m)) = !b := by cases b <;> rfl

theorem countP_pass_fail (judge : α → Option (Bool × String)) (els : List α) :
    els.countP (fun e => passJ (judge e)) + els.countP (fun e => failJ (judge e))
      = els.countP (fun e => (judge e).isSome) := by
  induction els with
  | nil => simp
  | cons e els ih =>
    rcases h : judge e with _ | ⟨b, m⟩
    · rw [List.countP_cons, List.countP_cons, List.countP_cons, h, passJ_none, failJ_none,
        Option.isSome_none]
      simp
      omega
    · rw [List.countP_cons, List.countP_cons, List.countP_cons, h, passJ_some, failJ_some,
        Option.isSome_some]
      cases b <;> simp <;> omega

theorem countP_judged_all (f : α → Bool × String) (els : List α) :
    els.countP (fun e => (some (f e) : Option (Bool × String)).isSome) = els.length := by
  induction els with
  | nil => simp
  | cons e els ih => simp [List.countP_cons, ih]

theorem totalT_addT (s d : TState) : totalT (addT s d) = totalT s + totalT d := by
  simp [totalT, allCats, addT]
  ring

theorem totalT_mkDelta (cat : Cat) (c w : ℕ) : totalT (mkDelta cat c w) = c + w := by
  cases cat <;> simp [totalT, allCats, mkDelta]

theorem addT_correct_le (s d : TState) (x : Cat) : s.correct x ≤ (addT s d).correct x :=
  Nat.le_add_right _ _

theorem addT_wrong_le (s d : TState) (x : Cat) : s.wrong x ≤ (addT s d).wrong x :=
  Nat.le_add_right _ _

theorem addT_mk_other (s : TState) (cat x : Cat) (a b : ℕ) (hx : x ≠ cat) :
    (addT s (mkDelta cat a b)).correct x = s.correct x
    ∧ (addT s (mkDelta cat a b)).wrong x = s.wrong x := by
  constructor <;> simp [addT, mkDelta, hx]

theorem addT_mk_mk (cat : Cat) (a1 b1 a2 b2 : ℕ) :
    addT (mkDelta cat a1 b1) (mkDelta cat a2 b2) = mkDelta cat (a1 + a2) (b1 + b2) := by
  ext x <;> simp [addT, mkDelta] <;> by_cases hx : x = cat <;> simp [hx]

theorem step_props (cat : Cat) (s : TState) (a b : ℕ) :
    (∀ x, s.correct x ≤ (addT s (mkDelta cat a b)).correct x
      ∧ s.wrong x ≤ (addT s (mkDelta cat a b)).wrong x)
    ∧ (∀ x, x ≠ cat → (addT s (mkDelta cat a b)).correct x = s.correct x
      ∧ (addT s (mkDelta cat a b)).wrong x = s.wrong x)
    ∧ totalT (addT s (mkDelta cat a b)) = totalT s + (a + b) := by
  refine ⟨fun x => ⟨addT_correct_le s _ x, addT_wrong_le s _ x⟩,
    fun x hx => addT_mk_other s cat x a b hx, ?_⟩
  rw [totalT_addT, totalT_mkDelta]

/-- C10: the per-category tallies start at zero, every evaluator run leaves
    every counter no smaller, touches only its own category, and raises the
    combined total by exactly the number of judged elements (each judged
    element increments exactly one of correct and wrong by one). -/
theorem c10_tally_monotonicity :
    (∀ x, initState.correct x = 0 ∧ initState.wrong x = 0)
    ∧ ∀ (style : Node → StyleInfo) (c : Checker) (page : List Node) (s : TState)
        (p2 : List Node) (s2 : TState),
        runChecker style c page s = some (p2, s2) →
        (∀ x, s.correct x ≤ s2.correct x ∧ s.wrong x ≤ s2.wrong x)
        ∧ (∀ x, x ≠ catOf c → s2.correct x = s.correct x ∧ s2.wrong x = s.wrong x)
        ∧ totalT s2 = totalT s + judgedCount style c page := by
  refine ⟨fun x => ⟨rfl, rfl⟩, ?_⟩
  intro style c page s p2 s2 hrun
  cases c with
  | docLanguage =>
    rcases hft : findTag page "html" with _ | h
    · rw [runChecker, check_doc_language, hft] at hrun
      simp at hrun
    · rw [runChecker, check_doc_language, hft] at hrun
      simp only [Option.map_some'] at hrun
      injection hrun with hrun
      injection hrun with hpg hst
      subst hst
      rcases hl : getAttr h "lang" with _ | l
      · simp only [hl, incW_eq]
        have hp := step_props Cat.doc_language s 0 1
        exact ⟨hp.1, hp.2.1, by rw [hp.2.2, judgedCount]⟩
      · simp only [hl]
        by_cases he : l == ""
        · rw [if_pos he, incW_eq]
          have hp := step_props Cat.doc_language s 0 1
          exact ⟨hp.1, hp.2.1, by rw [hp.2.2, judgedCount]⟩
        · rw [if_neg he, incC_eq]
          have hp := step_props Cat.doc_language s 1 0
          exact ⟨hp.1, hp.2.1, by rw [hp.2.2, judgedCount]⟩
  | altTexts =>
    rw [runChecker] at hrun
    injection hrun with hrun
    injection hrun with hpg hst
    subst hst
    rw [check_alt_texts, tallyFold_eq]
    refine ⟨(step_props _ s _ _).1, (step_props _ s _ _).2.1, ?_⟩
    rw [(step_props _ s _ _).2.2, judgedCount]
    rw [countP_pass_fail (fun e => some (altJudge e)), countP_judged_all]
  | inputLabels =>
    rw [runChecker] at hrun
    injection hrun with hrun
    injection hrun with hpg hst
    subst hst
    rw [check_input_labels, tallyFold_eq]
    refine ⟨(step_props _ s _ _).1, (step_props _ s _ _).2.1, ?_⟩
    rw [(step_props _ s _ _).2.2, judgedCount]
    rw [countP_pass_fail (inputLabelJudge page (findAllTag page "label"))]
  | buttons =>
    rw [runChecker] at hrun
    injection hrun with hrun
    injection hrun with hpg hst
    subst hst
    rw [check_buttons, tallyFold_eq, tallyFold_eq, addT_assoc, addT_mk_mk]
    refine ⟨(step_props _ s _ _).1, (step_props _ s _ _).2.1, ?_⟩
    rw [(step_props _ s _ _).2.2, judgedCount]
    have h1 := countP_pass_fail (fun e => some (buttonInputJudge e)) (typedButtonInputs page)
    have h2 := countP_pass_fail (fun e => some (buttonElemJudge e)) (findAllTag page "button")
    rw [countP_judged_all] at h1 h2
    omega
  | links =>
    rw [runChecker] at hrun
    injection hrun with hrun
    injection hrun with hpg hst
    subst hst
    rw [check_links, tallyFold_eq]
    refine ⟨(step_props _ s _ _).1, (step_props _ s _ _).2.1, ?_⟩
    rw [(step_props _ s _ _).2.2, judgedCount]
    rw [countP_pass_fail (fun e => some (linkJudge e)), countP_judged_all]
  | colorContrast =>
    rw [runChecker, check_color_contrast] at hrun
    injection hrun with hrun
    injection hrun with hpg hst
    subst hst
    rw [tallyFold_eq]
    refine ⟨(step_props _ s _ _).1, (step_props _ s _ _).2.1, ?_⟩
    rw [(step_props _ s _ _).2.2, judgedCount]
    rw [countP_pass_fail (contrastJudge style)]

/-- C2 (amended): the non-empty-controls evaluator passes a button-type
    input exactly when its value attribute is present and non-empty (the
    title attribute is not consulted for inputs), and passes a button
    element exactly when it has text content or a non-empty title
    attribute. -/
theorem c2_button_content_rule :
    (∀ (page : List Node) (s : TState), check_buttons page s = addT s (addT
      (mkDelta .empty_buttons
        ((typedButtonInputs page).countP (fun e => passJ (some (buttonInputJudge e))))
        ((typedButtonInputs page).countP (fun e => failJ (some (buttonInputJudge e)))))
      (mkDelta .empty_buttons
        ((findAllTag page "button").countP (fun e => passJ (some (buttonElemJudge e))))
        ((findAllTag page "button").countP (fun e => failJ (some (buttonElemJudge e)))))))
    ∧ (∀ el, (buttonInputJudge el).1 = true ↔ ∃ v, getAttr el "value" = some v ∧ v ≠ "")
    ∧ (∀ el, (buttonElemJudge el).1 = true
        ↔ (el.strings ≠ [] ∨ ∃ t, getAttr el "title" = some t ∧ t ≠ "")) := by
  refine ⟨?_, ?_, ?_⟩
  · intro page s
    rw [check_buttons, tallyFold_eq, tallyFold_eq, addT_assoc]
  · intro el
    rw [buttonInputJudge]
    by_cases hv : attrNonEmpty el "value"
    · rw [if_pos hv]
      simp only [true_iff]
      rw [attrNonEmpty] at hv
      rcases hg : getAttr el "value" with _ | v
      · rw [hg] at hv; simp at hv
      · rw [hg] at hv
        exact ⟨v, rfl, by simpa using hv⟩
    · rw [if_neg hv]
      simp only [Bool.false_eq_true, false_iff]
      rintro ⟨v, hg, hne⟩
      rw [attrNonEmpty, hg] at hv
      simp [hne] at hv
  · intro el
    rw [buttonElemJudge]
    by_cases hb : (!(el.strings == []) || attrNonEmpty el "title") = true
    · rw [if_pos hb]
      simp only [true_iff]
      rcases Bool.or_eq_true_iff.mp hb with hs | ht
      · exact Or.inl (by simpa using hs)
      · rw [attrNonEmpty] at ht
        rcases hg : getAttr el "title" with _ | t
        · rw [hg] at ht; simp at ht
        · rw [hg] at ht
          exact Or.inr ⟨t, rfl, by simpa using ht⟩
    · rw [if_neg hb]
      simp only [Bool.false_eq_true, false_iff]
      rintro (hs | ⟨t, hg, hne⟩)
      · exact hb (Bool.or_eq_true_iff.mpr (Or.inl (by simpa using hs)))
      · exact hb (Bool.or_eq_true_iff.mpr (Or.inr (by rw [attrNonEmpty, hg]; simpa using hne)))

/-- C4 (amended): with zero findings `calculate_result` reports the
    distinct nothing-found outcome without computing the ratio; otherwise
    it succeeds exactly when correct/(correct+wrong) reaches the required
    degree, and a ratio below the required degree makes it raise an
    exception rather than return normally. -/
theorem c4_verdict_outcomes (c w : ℕ) (rd : ℚ) (hnz : ¬(c = 0 ∧ w = 0)) :
    calculate_result 0 0 rd = .ok .nothingFound
    ∧ (calculate_result c w rd = .ok .deploy ↔ rd ≤ (c : ℚ) / ((c : ℚ) + (w : ℚ)))
    ∧ (calculate_result c w rd = .error "Too many accessibility errors - try fix them!"
        ↔ (c : ℚ) / ((c : ℚ) + (w : ℚ)) < rd) := by
  refine ⟨by simp [calculate_result], ?_, ?_⟩
  · rw [calculate_result, if_neg hnz]
    by_cases hle : rd ≤ (c : ℚ) / ((c : ℚ) + (w : ℚ))
    · simp [hle]
    · simp [hle]
  · rw [calculate_result, if_neg hnz]
    by_cases hle : rd ≤ (c : ℚ) / ((c : ℚ) + (w : ℚ))
    · simp [hle, not_lt.mpr hle]
    · simp [hle, not_le.mp hle]

/-- C6: over any chain of background colours with non-negative alpha
    (element first, ancestors after), `get_background_color` returns the
    first colour with positive alpha, or opaque white when there is none. -/
theorem c6_effective_background (chain : List Color) (h : ∀ c ∈ chain, 0 ≤ c.a) :
    get_background_color chain = spec_effective_background chain := by
  induction chain with
  | nil => rfl
  | cons c rest ih =>
    rw [get_background_color, spec_effective_background]
    by_cases hc : (c.a == 0) = true
    · have hz : c.a = 0 := by simpa using hc
      rw [if_pos hc, List.find?_cons_of_neg _ (by simp [hz])]
      exact ih (fun d hm => h d (List.mem_cons_of_mem _ hm))
    · have hnz : c.a ≠ 0 := by simpa using hc
      have hpos : 0 < c.a := lt_of_le_of_ne (h c (List.mem_cons_self c rest)) (Ne.symm hnz)
      rw [if_neg hc, List.find?_cons_of_pos _ (by simpa using hpos)]
      rfl

/-- C5: the input-labeling evaluator judges exactly the form controls not
    of type hidden/submit/reset/button, and on them it equals the
    specification's priority evaluation (image-with-alt, aria-label,
    aria-labelledby, label-for; first applicable path wins), with distinct
    detail reasons for a missing versus an empty label reference. -/
theorem c5_input_label_priority :
    (∀ (page : List Node) (el : Node),
      inputLabelJudge page (findAllTag page "label") el =
        if inputIncluded el then
          some (spec_input_label page (findAllTag page "label") el)
        else none)
    ∧ ("Input labelled with aria-labelledby attribute, but related label does not exist"
        ≠ "Input labelled with aria-labelledby attribute, but related label has no text") := by
  refine ⟨?_, by decide⟩
  intro page el
  by_cases hinc : inputIncluded el
  · rw [inputLabelJudge, if_pos hinc, if_pos hinc]
    congr 1
    rw [spec_input_label, spec_label_paths]
    by_cases h1 : (getAttr el "type" == some "image" && attrNonEmpty el "alt") = true
    · rw [if_pos h1, if_pos h1]
      simp [List.findSome?_cons]
    · rw [if_neg h1, if_neg h1]
      by_cases h2 : attrNonEmpty el "aria-label" = true
      · rw [if_pos h2, if_pos h2]
        simp [List.findSome?_cons]
      · rw [if_neg h2, if_neg h2]
        by_cases h3 : attrNonEmpty el "aria-labelledby" = true
        · rw [if_pos h3, if_pos h3]
          simp only [List.findSome?_cons, id]
          rcases hf : findById page ((getAttr el "aria-labelledby").getD "") with _ | lbl
          · simp [hf]
          · by_cases hs : (lbl.strings == []) = true
            · simp [hf, hs]
            · simp [hf, hs]
        · rw [if_neg h3, if_neg h3]
          by_cases h4 : (findAllTag page "label").any (fun l =>
              hasAttr l "for" && hasAttr el "id" && (getAttr l "for" == getAttr el "id")) = true
          · rw [if_pos h4, if_pos h4]
            simp [List.findSome?_cons]
          · rw [if_neg h4, if_neg h4]
            simp [List.findSome?_cons]
  · rw [inputLabelJudge, if_neg hinc, if_neg hinc]

/- Colour math lemmas. -/

theorem get_contrast_ratio_eq (a b : Color) :
    get_contrast_ratio a b = if luminanceOf a > luminanceOf b
      then (luminanceOf a + 0.05) / (luminanceOf b + 0.05)
      else (luminanceOf b + 0.05) / (luminanceOf a + 0.05) := rfl

theorem conv_nonneg (v : ℝ) (hv : 0 ≤ v) : 0 ≤ convert_rgb_8bit_value v := by
  unfold convert_rgb_8bit_value
  dsimp only
  split
  · positivity
  · exact Real.rpow_nonneg (by positivity) _

theorem lum_nonneg (c : Color) (h : channelsInRange c) : 0 ≤ luminanceOf c := by
  unfold luminanceOf
  have h1 := conv_nonneg (c.r : ℝ) (by exact_mod_cast h.1)
  have h2 := conv_nonneg (c.g : ℝ) (by exact_mod_cast h.2.2.1)
  have h3 := conv_nonneg (c.b : ℝ) (by exact_mod_cast h.2.2.2.2.1)
  positivity

/-- C7: for colours with channels in 0-255 the contrast ratio is symmetric
    in its arguments, equals one on identical colours, and is always at
    least one. -/
theorem c7_contrast_symmetry (A B : Color) (hA : channelsInRange A) (hB : channelsInRange B) :
    get_contrast_ratio A B = get_contrast_ratio B A
    ∧ get_contrast_ratio A A = 1
    ∧ 1 ≤ get_contrast_ratio A B := by
  have h1 := lum_nonneg A hA
  have h2 := lum_nonneg B hB
  refine ⟨?_, ?_, ?_⟩
  · rw [get_contrast_ratio_eq, get_contrast_ratio_eq]
    rcases lt_trichotomy (luminanceOf A) (luminanceOf B) with h | h | h
    · rw [if_neg (by linarith), if_pos h]
    · rw [h]
    · rw [if_pos h, if_neg (by linarith)]
  · rw [get_contrast_ratio_eq, if_neg (lt_irrefl _)]
    exact div_self (by linarith)
  · rw [get_contrast_ratio_eq]
    split
    · rw [le_div_iff₀ (by linarith)]
      next h => linarith
    · rw [le_div_iff₀ (by linarith)]
      next h => push_neg at h; linarith

/- C8 lemmas. -/

theorem conv_zero : convert_rgb_8bit_value 0 = 0 := by
  unfold convert_rgb_8bit_value
  norm_num

theorem conv_255 : convert_rgb_8bit_value 255 = 1 := by
  unfold convert_rgb_8bit_value
  dsimp only
  rw [if_neg (by norm_num), show ((255 : ℝ)/255 + 0.055) / 1.055 = 1 by norm_num]
  exact Real.one_rpow _

theorem rpow24_bridge (x c : ℝ) (hx : 0 ≤ x) (h : c ^ (5 : ℕ) ≤ x ^ (12 : ℕ)) :
    c ≤ x ^ (2.4 : ℝ) := by
  have key : (x ^ (2.4 : ℝ)) ^ (5 : ℕ) = x ^ (12 : ℕ) := by
    rw [← Real.rpow_natCast (x ^ (2.4 : ℝ)) 5, ← Real.rpow_mul hx]
    rw [show (2.4 : ℝ) * (5 : ℕ) = ((12 : ℕ) : ℝ) by norm_num, Real.rpow_natCast]
  exact le_of_pow_le_pow_left₀ (by norm_num) (Real.rpow_nonneg hx _) (h.trans_eq key.symm)

theorem rpow24_bridge_lt (x c : ℝ) (hx : 0 ≤ x) (hc : 0 ≤ c) (h : x ^ (12 : ℕ) < c ^ (5 : ℕ)) :
    x ^ (2.4 : ℝ) < c := by
  have key : (x ^ (2.4 : ℝ)) ^ (5 : ℕ) = x ^ (12 : ℕ) := by
    rw [← Real.rpow_natCast (x ^ (2.4 : ℝ)) 5, ← Real.rpow_mul hx]
    rw [show (2.4 : ℝ) * (5 : ℕ) = ((12 : ℕ) : ℝ) by norm_num, Real.rpow_natCast]
  exact lt_of_pow_lt_pow_left₀ _ hc (key.trans_lt h)

theorem conv_low (v : ℝ) (h : v ≤ 10) : convert_rgb_8bit_value v = (v/255)/12.92 := by
  unfold convert_rgb_8bit_value
  dsimp only
  rw [if_pos (by rw [div_le_iff₀ (by norm_num : (0 : ℝ) < 255)]; linarith)]

theorem conv_high (v : ℝ) (h : 11 ≤ v) :
    convert_rgb_8bit_value v = ((v/255 + 0.055)/1.055) ^ (2.4 : ℝ) := by
  unfold convert_rgb_8bit_value
  dsimp only
  rw [if_neg (by rw [not_le, lt_div_iff₀ (by norm_num : (0 : ℝ) < 255)]; linarith)]

theorem conv_mono_nat (n m : ℕ) (hnm : n ≤ m) (hm : m ≤ 255) :
    convert_rgb_8bit_value n ≤ convert_rgb_8bit_value m := by
  have hcast : (n : ℝ) ≤ (m : ℝ) := by exact_mod_cast hnm
  by_cases h1 : m ≤ 10
  · have hn10 : (n : ℝ) ≤ 10 := by exact_mod_cast hnm.trans h1
    have hm10 : (m : ℝ) ≤ 10 := by exact_mod_cast h1
    rw [conv_low _ hn10, conv_low _ hm10]
    gcongr
  · by_cases h2 : 11 ≤ n
    · have hn11 : (11 : ℝ) ≤ (n : ℝ) := by exact_mod_cast h2
      have hm11 : (11 : ℝ) ≤ (m : ℝ) := by exact_mod_cast (h2.trans hnm)
      rw [conv_high _ hn11, conv_high _ hm11]
      apply Real.rpow_le_rpow (by positivity) (by gcongr) (by norm_num)
    · push_neg at h1 h2
      have hn10 : (n : ℝ) ≤ 10 := by exact_mod_cast Nat.lt_succ_iff.mp h2
      have hm11 : (11 : ℝ) ≤ (m : ℝ) := by exact_mod_cast h1
      rw [conv_low _ hn10, conv_high _ hm11]
      have step1 : ((n : ℝ)/255)/12.92 ≤ ((10 : ℝ)/255)/12.92 := by gcongr
      have step2 : ((10 : ℝ)/255)/12.92 ≤ (((11 : ℝ)/255 + 0.055)/1.055) ^ (2.4 : ℝ) := by
        apply rpow24_bridge _ _ (by norm_num)
        norm_num
      have step3 : (((11 : ℝ)/255 + 0.055)/1.055) ^ (2.4 : ℝ)
          ≤ (((m : ℝ)/255 + 0.055)/1.055) ^ (2.4 : ℝ) := by
        apply Real.rpow_le_rpow (by positivity) (by gcongr) (by norm_num)
      linarith

/-- C8 counterexample: the linearization is not monotone over the whole
    real input range 0-255: just above the branch split the power branch
    starts below the linear branch, so the value at channel 10.017 is
    strictly below the value at channel 10.0164. -/
theorem c8_counterexample_real_dip :
    0 ≤ (10.0164 : ℝ) ∧ (10.0164 : ℝ) < 10.017 ∧ (10.017 : ℝ) ≤ 255
    ∧ convert_rgb_8bit_value 10.017 < convert_rgb_8bit_value 10.0164 := by
  refine ⟨by norm_num, by norm_num, by norm_num, ?_⟩
  have h0 : convert_rgb_8bit_value 10.0164 = (10.0164 : ℝ)/255/12.92 := by
    unfold convert_rgb_8bit_value
    dsimp only
    rw [if_pos (by norm_num)]
  have h1 : convert_rgb_8bit_value 10.017 = (((10.017 : ℝ)/255 + 0.055)/1.055) ^ (2.4 : ℝ) := by
    unfold convert_rgb_8bit_value
    dsimp only
    rw [if_neg (by norm_num)]
  rw [h0, h1]
  apply rpow24_bridge_lt _ _ (by norm_num) (by norm_num)
  norm_num
theorem fold_aud (so : Nat → Bool) (current : Nat)
    (recur : Nat → CrawlState → Option CrawlState)
    (hrec : ∀ h s s', recur h s = some s' → ∀ v ∈ s'.audited, v ∈ s.audited ∨ v = h ∨ so v = true) :
    ∀ (ls : List CrawlLink) (s s' : CrawlState),
      ls.foldlM (crawlStep so current recur) s = some s' →
      ∀ w ∈ s'.audited, w ∈ s.audited ∨ so w = true := by
  intro ls
  induction ls with
  | nil => intro s s' hfold w hw; simp at hfold; subst hfold; exact Or.inl hw
  | cons l ls ihl =>
    intro s s' hfold w hw
    rw [List.foldlM_cons] at hfold
    unfold crawlStep at hfold
    by_cases hd : !l.displayed
    · simp only [hd, if_true] at hfold
      exact ihl _ _ hfold w hw
    · simp only [hd, if_false] at hfold
      cases hh : l.href with
      | none => simp only [hh] at hfold; exact ihl _ _ hfold w hw
      | some h2 =>
        simp only [hh] at hfold
        by_cases hc : h2 = current ∨ h2 ∈ s.visited
        · simp only [hc, if_true] at hfold
          exact ihl _ _ hfold w hw
        · simp only [hc, if_false] at hfold
          by_cases hc2 : h2 ∈ s.visited ∨ !(so h2)
          · simp only [hc2, if_true] at hfold
            exact ihl _ _ hfold w hw
          · simp only [hc2, if_false] at hfold
            cases hmid : recur h2 { s with opened := s.opened ++ [h2] } with
            | none => rw [hmid] at hfold; simp at hfold
            | some smid =>
              rw [hmid] at hfold
              simp only [Bool.false_eq_true, if_false, Option.some_bind] at hfold
              have hso : so h2 = true := by
                push_neg at hc2
                simpa using hc2.2
              have := ihl _ _ hfold w hw
              rcases this with hmem | hso2
              · have := hrec h2 _ _ hmid w hmem
                rcases this with ha | hb | hcx
                · exact Or.inl ha
                · subst hb; exact Or.inr hso
                · exact Or.inr hcx
              · exact Or.inr hso2

/-- C1 (amended): a cross-origin link target can be opened and navigated in
    a child rendering context, but it is never audited: every URL in the
    audit log after a crawl was already audited before, is the page the
    crawl started on, or satisfies the origin test. -/
theorem c1_cross_origin_never_audited (site : Site) (so : Nat → Bool) (follow : Bool) :
    ∀ fuel u st st', test_page site so follow fuel u st = some st' →
      ∀ v ∈ st'.audited, v ∈ st.audited ∨ v = u ∨ so v = true := by
  cases follow with
  | false =>
    intro fuel u st st' h v hv
    cases fuel with
    | zero => simp [test_page] at h
    | succ n =>
      simp only [test_page, if_false, Bool.false_eq_true] at h
      injection h with h; subst h
      simp at hv
      rcases hv with h1 | h1
      · exact Or.inl h1
      · exact Or.inr (Or.inl h1)
  | true =>
    intro fuel
    induction fuel with
    | zero => intro u st st' h; simp [test_page] at h
    | succ n ih =>
      intro u st st' h v hv
      simp only [test_page, if_true] at h
      have := fold_aud so u (test_page site so true n) (fun h2 s s' heq => ih h2 s s' heq) _ _ _ h v hv
      rcases this with h1 | h2
      · simp at h1
        rcases h1 with h1 | h1
        · exact Or.inl h1
        · exact Or.inr (Or.inl h1)
      · exact Or.inr (Or.inr h2)

/-- C9: on a page linking to itself and on a two-page cycle, the crawl
    with link-following enabled terminates (a result is reached with the
    stated fuel) and audits each page exactly once, the audit logs being
    duplicate-free. -/
theorem c9_cyclic_crawl_terminates (a b : ℕ) (hab : a ≠ b) :
    test_page (selfSite a) (fun _ => true) true 2 a ⟨[], [], []⟩ = some ⟨[a], [a], []⟩
    ∧ test_page (cycleSite a b) (fun _ => true) true 3 a ⟨[], [], []⟩ = some ⟨[a, b], [a, b], [b]⟩
    ∧ ([a, b] : List ℕ).Nodup := by
  refine ⟨?_, ?_, by simp [hab]⟩
  · simp [test_page, selfSite, crawlStep]
  · simp [test_page, cycleSite, crawlStep, hab, Ne.symm hab]

/-- C1 counterexample: with follow enabled, the crawl of the origin page 0
    opens and navigates a new rendering context for the cross-origin link
    target 5 (it appears in the opened-context log) even though the target
    is not same-origin; the admission check of the specification runs only
    after the context is opened. -/
theorem c1_counterexample_cross_origin_opened :
    test_page crossSite crossOrigin true 2 0 ⟨[], [], []⟩ = some ⟨[0], [0], [5]⟩
    ∧ crossOrigin 5 = false := by
  refine ⟨by decide, by decide⟩

/- ---------------------------------------------------------------------
   Claim counterexamples and witnesses. -/

/-- C1 witness: the amended theorem applied to the cross-origin crawl. -/
theorem c1_cross_origin_never_audited_witness :
    test_page crossSite crossOrigin true 2 0 ⟨[], [], []⟩ = some ⟨[0], [0], [5]⟩
    ∧ ((0 : ℕ) ∈ ([] : List ℕ) ∨ 0 = 0 ∨ crossOrigin 0 = true) :=
  ⟨by decide,
    c1_cross_origin_never_audited crossSite crossOrigin true 2 0 ⟨[], [], []⟩
      ⟨[0], [0], [5]⟩ (by decide) 0 (by decide)⟩

/-- C2 counterexample: a submit input with a non-empty title but no value
    attribute is recorded as a failure by the non-empty-controls evaluator,
    although the claim requires a pass for a non-empty title. -/
theorem c2_counterexample_title_ignored :
    (check_buttons titledSubmitPage initState).wrong Cat.empty_buttons = 1
    ∧ (check_buttons titledSubmitPage initState).correct Cat.empty_buttons = 0
    ∧ getAttr titledSubmitInput "title" = some "Go"
    ∧ (buttonInputJudge titledSubmitInput).1 = false :=
  ⟨by decide, by decide, by decide, by decide⟩

/-- C3 witness: two orders of the first two evaluators yield the same
    result on the script-button page. -/
theorem c3_pure_evaluator_order_invariance_witness :
    ([Checker.docLanguage, Checker.altTexts]).Perm [Checker.altTexts, Checker.docLanguage]
    ∧ Checker.colorContrast ∉ [Checker.docLanguage, Checker.altTexts]
    ∧ (findTag scriptButtonPage "html").isSome = true
    ∧ runCheckers plainStyle [Checker.docLanguage, Checker.altTexts] scriptButtonPage initState
      = runCheckers plainStyle [Checker.altTexts, Checker.docLanguage] scriptButtonPage
          initState :=
  ⟨by decide, by decide, by decide,
    c3_pure_evaluator_order_invariance plainStyle scriptButtonPage initState
      [Checker.docLanguage, Checker.altTexts] [Checker.altTexts, Checker.docLanguage]
      (by decide) (by decide) (by decide)⟩

/-- C4 counterexample: with one failure and a required degree of one, the
    ratio is below the threshold and `calculate_result` ends in the raised
    exception, not in a normal return. -/
theorem c4_counterexample_exception_on_failure :
    calculate_result 0 1 1 = .error "Too many accessibility errors - try fix them!"
    ∧ (0 : ℚ) / ((0 : ℚ) + (1 : ℚ)) < 1 := by
  constructor
  · rw [calculate_result, if_neg (by decide), if_neg (by norm_num)]
  · norm_num

/-- C4 witness: the amended theorem applied at two correct findings, one
    wrong finding and required degree one. -/
theorem c4_verdict_outcomes_witness :
    ¬((2 : ℕ) = 0 ∧ (1 : ℕ) = 0)
    ∧ (calculate_result 0 0 1 = .ok .nothingFound
      ∧ (calculate_result 2 1 1 = .ok .deploy ↔ (1 : ℚ) ≤ (2 : ℚ) / ((2 : ℚ) + (1 : ℚ)))
      ∧ (calculate_result 2 1 1 = .error "Too many accessibility errors - try fix them!"
        ↔ (2 : ℚ) / ((2 : ℚ) + (1 : ℚ)) < 1)) :=
  ⟨by decide, c4_verdict_outcomes 2 1 1 (by decide)⟩

/-- C6 witness: the theorem applied to a chain whose first colour is fully
    transparent. -/
theorem c6_effective_background_witness :
    (∀ c ∈ [(⟨1, 2, 3, 0⟩ : Color), ⟨4, 5, 6, 1⟩], 0 ≤ c.a)
    ∧ get_background_color [(⟨1, 2, 3, 0⟩ : Color), ⟨4, 5, 6, 1⟩]
      = spec_effective_background [(⟨1, 2, 3, 0⟩ : Color), ⟨4, 5, 6, 1⟩] :=
  ⟨by decide, c6_effective_background _ (by decide)⟩

/-- C7 witness: the theorem applied to black text on a white background. -/
theorem c7_contrast_symmetry_witness :
    channelsInRange ⟨0, 0, 0, 1⟩ ∧ channelsInRange ⟨255, 255, 255, 1⟩
    ∧ (get_contrast_ratio ⟨0, 0, 0, 1⟩ ⟨255, 255, 255, 1⟩
        = get_contrast_ratio ⟨255, 255, 255, 1⟩ ⟨0, 0, 0, 1⟩
      ∧ get_contrast_ratio ⟨0, 0, 0, 1⟩ ⟨0, 0, 0, 1⟩ = 1
      ∧ 1 ≤ get_contrast_ratio ⟨0, 0, 0, 1⟩ ⟨255, 255, 255, 1⟩) :=
  ⟨by decide, by decide,
    c7_contrast_symmetry ⟨0, 0, 0, 1⟩ ⟨255, 255, 255, 1⟩ (by decide) (by decide)⟩

/-- C8 (amended): the linearization maps 0 to 0 and 255 to 1, implements
    exactly the piecewise sRGB transfer function with the split at srgb
    0.03928, and is monotone non-decreasing on the integer channel values
    0-255 produced by rgba parsing (real-valued inputs dip just above the
    split, see the counterexample). -/
theorem c8_linearize_properties :
    convert_rgb_8bit_value 0 = 0
    ∧ convert_rgb_8bit_value 255 = 1
    ∧ (∀ v : ℝ, convert_rgb_8bit_value v =
        if v / 255 ≤ 0.03928 then (v / 255) / 12.92
        else ((v / 255 + 0.055) / 1.055) ^ (2.4 : ℝ))
    ∧ (∀ n m : ℕ, n ≤ m → m ≤ 255 →
        convert_rgb_8bit_value n ≤ convert_rgb_8bit_value m) :=
  ⟨conv_zero, conv_255, fun _ => rfl, conv_mono_nat⟩

/-- C8 witness: monotonicity applied at the integer channels 10 and 200. -/
theorem c8_linearize_properties_witness :
    ((10 : ℕ) ≤ 200 ∧ (200 : ℕ) ≤ 255)
    ∧ convert_rgb_8bit_value (10 : ℕ) ≤ convert_rgb_8bit_value (200 : ℕ) :=
  ⟨⟨by decide, by decide⟩, c8_linearize_properties.2.2.2 10 200 (by decide) (by decide)⟩

/-- C9 witness: the theorem applied to the concrete pages 0 and 1. -/
theorem c9_cyclic_crawl_terminates_witness :
    (0 : ℕ) ≠ 1
    ∧ (test_page (selfSite 0) (fun _ => true) true 2 0 ⟨[], [], []⟩ = some ⟨[0], [0], []⟩
      ∧ test_page (cycleSite 0 1) (fun _ => true) true 3 0 ⟨[], [], []⟩
        = some ⟨[0, 1], [0, 1], [1]⟩
      ∧ ([0, 1] : List ℕ).Nodup) :=
  ⟨by decide, c9_cyclic_crawl_terminates 0 1 (by decide)⟩

/-- C10 witness: the theorem applied to the non-empty-controls evaluator on
    the titled-submit page. -/
theorem c10_tally_monotonicity_witness :
    runChecker plainStyle Checker.buttons titledSubmitPage initState
      = some (titledSubmitPage, check_buttons titledSubmitPage initState)
    ∧ ((∀ x, initState.correct x ≤ (check_buttons titledSubmitPage initState).correct x
        ∧ initState.wrong x ≤ (check_buttons titledSubmitPage initState).wrong x)
      ∧ (∀ x, x ≠ catOf Checker.buttons →
          (check_buttons titledSubmitPage initState).correct x = initState.correct x
          ∧ (check_buttons titledSubmitPage initState).wrong x = initState.wrong x)
      ∧ totalT (check_buttons titledSubmitPage initState)
        = totalT initState + judgedCount plainStyle Checker.buttons titledSubmitPage) :=
  ⟨rfl, c10_tally_monotonicity.2 plainStyle Checker.buttons titledSubmitPage initState
    titledSubmitPage (check_buttons titledSubmitPage initState) rfl⟩
